import Mathlib

/-!
Verification of the pizza-ordering command-line program (`src/main.py`).

The program is single-threaded Python; its state is three module-level
structures (`all_base_options`, `all_toppings`, `cart`) plus flat JSON files.
We embed it shallowly:

* JSON documents (`json.loads` results) become the inductive `Json`; JSON
  numbers are modelled as rationals.  Python dictionaries built from JSON
  have distinct keys, so `Json.obj` carries an insertion-ordered association
  list with (by convention) distinct keys.
* File contents are modelled at the level of their JSON parse: a file either
  holds text that `json.loads` parses to some `Json` value, or text on which
  parsing raises (`FileData.invalid`).  This uses that the standard library's
  `json.dumps` and `json.loads` are mutually inverse on the values this
  program writes.
* The filesystem is an association list from path strings to `FileData`.
* Interactive prompts (`pyinputplus`) become explicit event parameters; the
  prompt library only ever returns one of the offered choices.
* An uncaught Python exception is a distinct `crash` outcome, never merged
  with an ordinary `return False` failure.
-/

set_option linter.unusedVariables false
set_option linter.dupNamespace false

namespace Pizza

/-- A parsed JSON value (the result of `json.loads`).  Numbers are modelled as
rationals; Python parses JSON numbers to `int`/`float`, and every numeric
literal appearing in the verified statements is exactly representable. -/
inductive Json where
  | null
  | bool (b : Bool)
  | num (q : ℚ)
  | str (s : String)
  | arr (items : List Json)
  | obj (fields : List (String × Json))

/-- Python dictionary lookup `d[k]` on an association list with distinct keys:
`none` models a raised `KeyError`. -/
def dictGet {α : Type} : List (String × α) → String → Option α
  | [], _ => none
  | (k', v) :: rest, k => if k' = k then some v else dictGet rest k

/-- Python dictionary assignment `d[k] = v`: overwrites the entry in place if
the key is present (Python keeps its insertion position), otherwise appends. -/
def dictSet {α : Type} : List (String × α) → String → α → List (String × α)
  | [], k, v => [(k, v)]
  | (k', v') :: rest, k, v =>
    if k' = k then (k, v) :: rest else (k', v') :: dictSet rest k v

/-- Deleting a key (used for `Path.unlink` on the filesystem model). -/
def dictRemove {α : Type} (l : List (String × α)) (k : String) : List (String × α) :=
  l.filter (fun kv => kv.1 ≠ k)

theorem dictGet_dictSet_same {α : Type} (l : List (String × α)) (k : String) (v : α) :
    dictGet (dictSet l k v) k = some v := by
  induction l with
  | nil => simp [dictGet, dictSet]
  | cons hd tl ih =>
    obtain ⟨k', v'⟩ := hd
    by_cases h : k' = k
    · simp [dictGet, dictSet, h]
    · simp [dictGet, dictSet, h, ih]

theorem dictGet_dictSet_other {α : Type} (l : List (String × α)) (k k' : String) (v : α)
    (hne : k' ≠ k) : dictGet (dictSet l k v) k' = dictGet l k' := by
  induction l with
  | nil => simp [dictGet, dictSet, Ne.symm hne]
  | cons hd tl ih =>
    obtain ⟨k₀, v₀⟩ := hd
    by_cases h : k₀ = k
    · subst h
      simp [dictGet, dictSet, Ne.symm hne]
    · simp [dictGet, dictSet, h, ih]

/-- Contents of a file on disk, at the level of their JSON parse: either text
that `json.loads` parses to `j`, or text on which `json.loads` raises
`JSONDecodeError`. -/
inductive FileData where
  | json (j : Json)
  | invalid

/-- The filesystem: an insertion-ordered map from paths to file contents.
A missing key models an absent file. -/
abbrev FS := List (String × FileData)

/-- `./cart.json` (the program resolves it to an absolute path; we keep the
relative name as the key). -/
def CART_FILE : String := "cart.json"

/-- `./ingredients.cache.json`. -/
def INGREDIENTS_CACHE_FILE : String := "ingredients.cache.json"

/-! ## Ingredient loader (`download_ingredients`, lines 41-109) -/

/-- Outcome of `requests.get(ENDPOINT_URL)` followed by `raise_for_status()`:
a 2xx response whose body text parses (or not) as JSON, a
`requests.HTTPError` raised by `raise_for_status` on a non-2xx status, or a
transport-level failure (`requests.ConnectionError`, `requests.Timeout`, ...)
raised by `requests.get` itself.  Transport-level exceptions are siblings of
`HTTPError` under `RequestException`, not subclasses of it. -/
inductive NetResult where
  | success (body : FileData)
  | httpError
  | transportError

/-- `j[key]` on a JSON value, as Python evaluates it on a parse result:
a key lookup on a dict; on anything else (list, string, number, ...) a
string subscript raises.  `none` models the raised exception. -/
def objGet (j : Json) (key : String) : Option Json :=
  match j with
  | .obj fields => dictGet fields key
  | _ => none

/-- `j[0]`, as used in the shape check: succeeds exactly on a non-empty JSON
array.  (On a dict it raises `KeyError 0` since parsed keys are strings; on a
number it raises `TypeError`; on a string it yields a one-character string
whose subsequent `["category"]` lookup raises — the same failure either
way.) -/
def arrGet0 (j : Json) : Option Json :=
  match j with
  | .arr (x :: _) => some x
  | _ => none

def isStr (j : Json) : Bool :=
  match j with
  | .str _ => true
  | _ => false

/-- `x.keys() is not None` succeeds exactly when `x` is a dict (otherwise
`.keys()` raises `AttributeError`); the `is not None` comparison is then
always true. -/
def isObj (j : Json) : Bool :=
  match j with
  | .obj _ => true
  | _ => false

/-- The field-formedness check of `download_ingredients` (lines 92-98): three
`assert`s inside `try/except Exception`, so any raised lookup error or failed
assertion yields `false` ("Ingredient data is improperly formed").
`type(x + "") is str` succeeds exactly when `x` is a string (string
concatenation raises `TypeError` otherwise). -/
def shape_check (j : Json) : Bool :=
  (match objGet j "base_options" with
   | none => false
   | some bo =>
     match arrGet0 bo with
     | none => false
     | some first =>
       (match objGet first "category" with
        | some c => isStr c
        | none => false)
       && (match objGet first "options" with
           | some o => isObj o
           | none => false))
  && (match objGet j "toppings" with
      | some t => isObj t
      | none => false)

/-- Is `j` a JSON value Python can add to a running numeric total and format
with `{:.2f}` — i.e. a price?  JSON numbers parse to `int`/`float`;
JSON `true`/`false` parse to Python `bool`, which is an `int` subclass, so
they are (degenerately) numeric too. -/
def jnum (j : Json) : Option ℚ :=
  match j with
  | .num q => some q
  | .bool b => some (if b then 1 else 0)
  | _ => none

/-- The minimal shape *as the specification describes it*: `base_options` a
non-empty sequence of objects, each with a string `category` and a non-empty
`options` mapping of option-name to price, and `toppings` a non-empty mapping
of topping-name to price.  Written from the spec's words, to be compared with
the code's `shape_check`. -/
def spec_shape (j : Json) : Bool :=
  (match objGet j "base_options" with
   | some (.arr elems) =>
     !elems.isEmpty && elems.all (fun e =>
       (match objGet e "category" with
        | some c => isStr c
        | none => false)
       && (match objGet e "options" with
           | some (.obj fields) => !fields.isEmpty && fields.all (fun kv => (jnum kv.2).isSome)
           | _ => false))
   | _ => false)
  && (match objGet j "toppings" with
      | some (.obj fields) => !fields.isEmpty && fields.all (fun kv => (jnum kv.2).isSome)
      | _ => false)

/-- The module-level stores as `download_ingredients` fills them:
`all_base_options[category] = base_options["options"]` keeps the raw JSON
`options` value; `all_toppings` copies the `toppings` entries. -/
structure RawStore where
  base_options : List (String × Json)
  toppings : List (String × Json)

/-- The `for base_options in ingredients_json["base_options"]` loop
(lines 102-103).  Iterating a non-list raises before or at the first
element's `["category"]` lookup (dict iteration yields string keys, string
iteration yields characters, numbers are not iterable), so only a list
proceeds.  A missing `"category"`/`"options"` key raises `KeyError` — this
loop runs outside any `try`, so that is a crash (`none`), not a `False`
return.  Category keys other than strings would be accepted as Python dict
keys; we model them as a crash — no verified statement distinguishes these
from other non-failure outcomes, and any such menu crashes at the first
`.title()` render in the editor. -/
def buildBase : List Json → List (String × Json) → Option (List (String × Json))
  | [], acc => some acc
  | e :: rest, acc =>
    match objGet e "category" with
    | some (.str c) =>
      match objGet e "options" with
      | some opts => buildBase rest (dictSet acc c opts)
      | none => none
    | _ => none

/-- The `for topping, price in ingredients_json["toppings"].items()` loop
(lines 106-107), starting from the cleared `all_toppings`. -/
def copyToppings (fields : List (String × Json)) : List (String × Json) :=
  fields.foldl (fun acc kv => dictSet acc kv.1 kv.2) []

/-- Lines 100-109: clear both stores and repopulate them from the document. -/
def buildStore (j : Json) : Option RawStore :=
  match objGet j "base_options" with
  | none => none
  | some bo =>
    match bo with
    | .arr elems =>
      match buildBase elems [] with
      | none => none
      | some base =>
        match objGet j "toppings" with
        | some (.obj fields) => some ⟨base, copyToppings fields⟩
        | _ => none
    | _ => none

/-- Result of `download_ingredients`: `ok` models `return True` with the
stores populated (and the possibly-updated filesystem), `failed` models
`return False`, `crash` models an uncaught exception escaping the function. -/
inductive DlOutcome where
  | ok (store : RawStore) (fs : FS)
  | failed (fs : FS)
  | crash

def DlOutcome.isFailed : DlOutcome → Bool
  | .failed _ => true
  | _ => false

def DlOutcome.isOk : DlOutcome → Bool
  | .ok _ _ => true
  | _ => false

/-- The tail of `download_ingredients` once `ingredients_json` holds a parsed
document `j` (lines 91-109): the shape check, then store population. -/
def finishLoad (j : Json) (fs : FS) : DlOutcome :=
  if shape_check j then
    match buildStore j with
    | some store => .ok store fs
    | none => .crash
  else .failed fs

/-- `download_ingredients()` (lines 41-109).  `cacheWriteOk` says whether the
opportunistic cache write succeeds (its failure is caught and only logged).

* 2xx with unparseable body: `json.JSONDecodeError` is caught — `False`,
  and the cache write (which comes after the parse) never runs.
* 2xx with parsed body `j`: cache the raw response text, then `finishLoad`.
* non-2xx: `except requests.HTTPError` — fall back to the cache file:
  absent file or `JSONDecodeError`/read error (`except Exception`) give
  `False`; a parsed cache document goes through the same `finishLoad`.
* transport failure: `requests.ConnectionError` &c. are *not* caught by
  `except json.JSONDecodeError` or `except requests.HTTPError`, so the
  exception propagates out of `download_ingredients` — a crash. -/
def download_ingredients (net : NetResult) (fs : FS) (cacheWriteOk : Bool) : DlOutcome :=
  match net with
  | .transportError => .crash
  | .success .invalid => .failed fs
  | .success (.json j) =>
    let fs' := if cacheWriteOk then dictSet fs INGREDIENTS_CACHE_FILE (.json j) else fs
    finishLoad j fs'
  | .httpError =>
    match dictGet fs INGREDIENTS_CACHE_FILE with
    | none => .failed fs
    | some .invalid => .failed fs
    | some (.json j) => finishLoad j fs

/-! ## The data model of the editor

A pizza as `command_new` builds it: an insertion-ordered dict from category
name to an optional selected option name, a list of topping names, and a
recipient string.  The in-memory store `all_base_options`/`all_toppings`
during the command loop is a `Menu`; editor-level statements quantify over
string-keyed menus with parsed options dicts, the shape every menu that
survives the first editor render has. -/

structure Pizza where
  base_options : List (String × Option String)
  toppings : List String
  recipient : String
  deriving DecidableEq

structure Menu where
  base_options : List (String × List (String × Json))
  toppings : List (String × Json)

/-! ## Cart store (`save_cart`/`load_cart`/`clear_cart`, lines 245-304) -/

/-- The JSON value `json.dumps` serializes for one pizza dict (key order is
insertion order: `base_options`, `toppings`, `recipient`). -/
def pizzaToJson (p : Pizza) : Json :=
  .obj [("base_options",
          .obj (p.base_options.map (fun cs =>
            (cs.1, match cs.2 with
                   | none => Json.null
                   | some s => Json.str s)))),
        ("toppings", .arr (p.toppings.map Json.str)),
        ("recipient", .str p.recipient)]

/-- `save_cart(cart_filepath)` (lines 245-258): dump the cart and overwrite
the file.  A raised I/O error is caught, logged, and leaves the filesystem
unchanged (the function signals nothing either way); `writeOk` says whether
the write succeeds. -/
def save_cart (fs : FS) (writeOk : Bool) (cartJson : List Json) : FS :=
  if writeOk then dictSet fs CART_FILE (.json (.arr cartJson)) else fs

/-- `for pizza in loaded_cart` over an arbitrary parsed value: a list yields
its items, a dict its keys, a string its one-character substrings; anything
else raises `TypeError`. -/
def pyIterate (j : Json) : Option (List Json) :=
  match j with
  | .arr l => some l
  | .obj fields => some (fields.map (fun kv => .str kv.1))
  | .str s => some (s.toList.map (fun c => .str (String.mk [c])))
  | _ => none

/-- Result of `load_cart`: `ok success cart` models an ordinary return with
the given in-memory cart, `crash` an uncaught exception (the `for` loop over
a non-iterable parse result runs outside the `try` blocks, after
`cart.clear()`). -/
inductive LoadOut where
  | ok (success : Bool) (cart : List Json)
  | crash

/-- `load_cart(cart_filepath)` (lines 260-289).  A missing file returns
`False`; a read error leaves `cart_file_data = ""`, whose parse then fails;
a `JSONDecodeError` prints "Malformed cart data" and returns `False` — in
both failure cases `cart` is untouched.  On a successful parse the cart is
cleared and the parsed items are appended. -/
def load_cart (fs : FS) (cart0 : List Json) : LoadOut :=
  match dictGet fs CART_FILE with
  | none => .ok false cart0
  | some .invalid => .ok false cart0
  | some (.json j) =>
    match pyIterate j with
    | some items => .ok true items
    | none => .crash

/-- `clear_cart(cart_filepath)` (lines 291-304), success path: unlink the
file if present and empty the in-memory cart.  (An unlink error would return
`False` leaving the cart intact; no verified statement exercises it.) -/
def clear_cart (fs : FS) : FS × List Json :=
  (dictRemove fs CART_FILE, [])

/-! ## `main` startup (lines 111-122) -/

/-- Where `main` gets to before its `while True` loop. -/
inductive StartupOut where
  | aborted
  | inLoop (store : RawStore) (cart : List Json) (fs : FS)
  | crash

/-- Lines 111-122 of `main`: a failed download prints "Menu download
failed!" and returns before the command loop; otherwise `load_cart` runs
(its boolean result only selects a printed hint) and the loop is entered
with whatever cart resulted. -/
def main_startup (net : NetResult) (fs : FS) (cacheWriteOk : Bool) : StartupOut :=
  match download_ingredients net fs cacheWriteOk with
  | .crash => .crash
  | .failed _ => .aborted
  | .ok store fs' =>
    match load_cart fs' [] with
    | .crash => .crash
    | .ok _ cart => .inLoop store cart fs'

/-! ## Price computation (`calculate_pizza_price`, lines 440-453) -/

/-- Python truthiness of a selection slot: `None` and the empty string are
falsy, every other string is truthy (`if selection:`). -/
def truthy (sel : Option String) : Bool :=
  match sel with
  | none => false
  | some s => !(s = "")

/-- The first loop of `calculate_pizza_price`: iterate the menu categories
accumulating `price_sum`; `pizza["base_options"][category]` raises
`KeyError` if the pizza lacks the category (`none` result); a truthy
selection's price is looked up in the menu (`KeyError` if absent) and added
(`TypeError` if not numeric). -/
def addBasePrices (pbo : List (String × Option String)) :
    List (String × List (String × Json)) → ℚ → Option ℚ
  | [], acc => some acc
  | (cat, opts) :: rest, acc =>
    match dictGet pbo cat with
    | none => none
    | some none => addBasePrices pbo rest acc
    | some (some s) =>
      if s = "" then addBasePrices pbo rest acc
      else
        match dictGet opts s with
        | none => none
        | some v =>
          match jnum v with
          | none => none
          | some q => addBasePrices pbo rest (acc + q)

/-- The second loop: add each selected topping's price from `all_toppings`. -/
def addToppingPrices (mt : List (String × Json)) : List String → ℚ → Option ℚ
  | [], acc => some acc
  | t :: rest, acc =>
    match dictGet mt t with
    | none => none
    | some v =>
      match jnum v with
      | none => none
      | some q => addToppingPrices mt rest (acc + q)

/-- `calculate_pizza_price(pizza)` (lines 440-453).  Pure by construction —
it reads the pizza and the menu and builds a number; the Python original
likewise never writes to `pizza`.  `none` models a raised
`KeyError`/`TypeError`. -/
def calculate_pizza_price (m : Menu) (p : Pizza) : Option ℚ :=
  match addBasePrices p.base_options m.base_options 0 with
  | none => none
  | some s => addToppingPrices m.toppings p.toppings s

/-- The prices of the selected base option of each category, skipping
unselected categories — the specification's reading, stated independently of
the accumulator loop. -/
def selected_base_prices (m : Menu) (p : Pizza) : List ℚ :=
  m.base_options.filterMap (fun co =>
    match dictGet p.base_options co.1 with
    | some (some s) => if s = "" then none else (dictGet co.2 s).bind jnum
    | _ => none)

/-- The prices of the selected toppings. -/
def selected_topping_prices (m : Menu) (p : Pizza) : List ℚ :=
  p.toppings.filterMap (fun t => (dictGet m.toppings t).bind jnum)

/-- Every lookup `calculate_pizza_price` performs on this pizza succeeds and
yields a numeric price: each menu category is a key of the pizza, each truthy
selection is a priced option of its category, each topping is priced. -/
def well_formed_pizza (m : Menu) (p : Pizza) : Bool :=
  m.base_options.all (fun co =>
    match dictGet p.base_options co.1 with
    | none => false
    | some none => true
    | some (some s) => (s = "") || ((dictGet co.2 s).bind jnum).isSome)
  && p.toppings.all (fun t => ((dictGet m.toppings t).bind jnum).isSome)

/-! ## Pizza editor (`edit_pizza`/`choose_toppings`/`choose_base_option`,
lines 345-437) -/

/-- The `all_required_picked` flag computed at the top of each `edit_pizza`
iteration: every menu category must hold a truthy selection.  (A pizza
missing a menu category key raises `KeyError` during the same render; the
`getD none` totalization is only reached when the render succeeded.) -/
def all_required_picked (m : Menu) (p : Pizza) : Bool :=
  m.base_options.all (fun co => truthy ((dictGet p.base_options co.1).getD none))

/-- Line 437, `pizza_options[category] = choice or pizza_options[category]`:
a falsy choice (blank input returns `None`; an empty-string option name is
also falsy) keeps the existing value, otherwise the choice is stored. -/
def choose_base_option (pick : Option String) (old : Option String) : Option String :=
  match pick with
  | none => old
  | some c => if c = "" then old else some c

/-- The toggle in `choose_toppings` (lines 420-424): `list.remove` deletes
the first occurrence, `append` adds at the end. -/
def toggle_topping (l : List String) (t : String) : List String :=
  if t ∈ l then l.erase t else l ++ [t]

/-- One user decision inside the `edit_pizza` loop.  `pyip.inputMenu` only
returns one of the offered choices, so `category` events carry a menu
category and `pick` one of its option names or `none` (blank input);
`toggles` carries the topping names toggled before choosing Save;
`cancel` carries the answer to the yes/no confirmation. -/
inductive EditEvent where
  | category (cat : String) (pick : Option String)
  | toppings (toggles : List String)
  | finish
  | cancel (confirm : Bool)

/-- Outcome of one `edit_pizza` iteration: stay in the loop, break out to
the recipient prompt, `return False`, or an uncaught exception. -/
inductive StepOut where
  | cont (p : Pizza)
  | finished (p : Pizza)
  | cancelled (p : Pizza)
  | crash

def StepOut.isFinished : StepOut → Bool
  | .finished _ => true
  | _ => false

/-- One iteration of the `edit_pizza` loop (lines 346-393).  The render at
the top of the loop performs exactly the dictionary lookups of
`calculate_pizza_price` (selection prices, topping prices, and the total for
the Finish line), so it crashes exactly when the price does.  Then the
user's choice is dispatched.  A `category` event for a key not offered by
the menu cannot arise from `pyip.inputMenu`; it is modelled as a no-op. -/
def editStep (m : Menu) (p : Pizza) (ev : EditEvent) : StepOut :=
  if (calculate_pizza_price m p).isNone then .crash
  else
    match ev with
    | .category cat pick =>
      match dictGet m.base_options cat with
      | none => .cont p
      | some _ =>
        match dictGet p.base_options cat with
        | none => .crash
        | some old =>
          .cont { p with base_options := dictSet p.base_options cat (choose_base_option pick old) }
    | .toppings toggles =>
      .cont { p with toppings := toggles.foldl toggle_topping p.toppings }
    | .finish =>
      if all_required_picked m p then .finished p else .cont p
    | .cancel confirm =>
      if confirm then .cancelled p else .cont p

/-- The recipient prompt after the loop breaks (lines 396-399): an existing
recipient is kept on blank input; otherwise `pyip.inputStr` re-prompts until
the input is non-blank and `nameIn` models the accepted input. -/
def finish_recipient (p : Pizza) (nameIn : String) : Pizza :=
  if p.recipient = "" then { p with recipient := nameIn }
  else { p with recipient := if nameIn = "" then p.recipient else nameIn }

/-- Result of a whole `edit_pizza` call.  `outOfInput` marks an event list
that ends with the loop still running (the real program would block on the
prompt). -/
inductive EditResult where
  | success (p : Pizza)
  | cancelledEdit (p : Pizza)
  | outOfInput (p : Pizza)
  | crash

/-- `edit_pizza(pizza)` (lines 345-401) driven by a list of user events. -/
def edit_pizza (m : Menu) (p : Pizza) (nameIn : String) : List EditEvent → EditResult
  | [] => .outOfInput p
  | ev :: rest =>
    match editStep m p ev with
    | .crash => .crash
    | .cancelled p' => .cancelledEdit p'
    | .finished p' => .success (finish_recipient p' nameIn)
    | .cont p' => edit_pizza m p' nameIn rest

/-- The fresh pizza `command_new` builds (lines 160-168): every menu
category initialized to `None`, no toppings, empty recipient. -/
def new_pizza (m : Menu) : Pizza :=
  ⟨m.base_options.map (fun co => (co.1, none)), [], ""⟩

/-- `command_new()` (lines 159-172): edit a fresh pizza and append it to the
cart only if editing returned success.  `none` models a crash or an
exhausted event list (no return yet). -/
def command_new (m : Menu) (cart : List Pizza) (nameIn : String)
    (events : List EditEvent) : Option (List Pizza) :=
  match edit_pizza m (new_pizza m) nameIn events with
  | .success p => some (cart ++ [p])
  | .cancelledEdit _ => some cart
  | .outOfInput _ => none
  | .crash => none

/-! ## Order writer (`create_order`, lines 306-342) -/

/-- The `while Path.exists(order_filepath)` loop of `create_order`
(lines 313-316).  The loop body is
`order_filepath = f"{order_id}_{attempts}.json"` — and `attempts`, set to 0
on line 313, is never incremented, which this embedding keeps: `attempts` is
a parameter that the recursive call passes along unchanged.  `fuel` bounds
the number of iterations; `none` for every fuel models non-termination. -/
def orderPathLoop (ex : String → Bool) (order_id : String) (attempts : Nat) :
    Nat → String → Option String
  | 0, _ => none
  | fuel + 1, path =>
    if ex path then
      orderPathLoop ex order_id attempts fuel (order_id ++ "_" ++ toString attempts ++ ".json")
    else some path

/-- Lines 311-316: start from `<order_id>.json` and probe with the loop. -/
def findOrderPath (ex : String → Bool) (order_id : String) (fuel : Nat) : Option String :=
  orderPathLoop ex order_id 0 fuel (order_id ++ ".json")

/-- The JSON document `create_order` writes: id, ISO timestamp, cart. -/
def order_doc (order_id date : String) (cart : List Pizza) : Json :=
  .obj [("id", .str order_id), ("date", .str date),
        ("items", .arr (cart.map pizzaToJson))]

/-- `create_order()` (lines 306-342).  `order_id` and `date` stand for the
strings derived from `datetime.today()` (wall-clock time is outside the
embedding).  The filename search runs first; then the order document is
written — a raised I/O error is caught and the function returns `False`
(`writeOk` says whether the write succeeds).  The function never touches the
in-memory cart or the cart file.  The outer `none` models the unbounded
filename-search loop never terminating (its own `try` only catches
exceptions, and `Path.exists` raises none here). -/
def create_order (fs : FS) (order_id date : String) (cart : List Pizza)
    (writeOk : Bool) (fuel : Nat) : Option (Bool × FS) :=
  match findOrderPath (fun pth => (dictGet fs pth).isSome) order_id fuel with
  | none => none
  | some pth =>
    if writeOk then some (true, dictSet fs pth (.json (order_doc order_id date cart)))
    else some (false, fs)

/-! ## Checkout (`command_checkout` and the checkout branch of `main`,
lines 151-157 and 223-242) -/

/-- Do the lookups of `print_pizza_receipt` (lines 455-465) succeed on this
pizza?  The receipt calls `.title()` on every selection (raising on `None`),
looks every selection and topping up in the menu, formats each price with
`{:>8.2f}` (raising on non-numbers), and ends with
`calculate_pizza_price`. -/
def receipt_ok (m : Menu) (p : Pizza) : Bool :=
  p.base_options.all (fun co =>
    match co.2 with
    | none => false
    | some s => ((dictGet m.base_options co.1).bind (fun opts => (dictGet opts s).bind jnum)).isSome)
  && p.toppings.all (fun t => ((dictGet m.toppings t).bind jnum).isSome)
  && (calculate_pizza_price m p).isSome

/-- `command_checkout()` (lines 223-242): `False` on an empty cart, else
print a receipt per pizza and the grand total and return `True`; `none`
models a lookup crash while printing a receipt. -/
def command_checkout (m : Menu) (cart : List Pizza) : Option Bool :=
  if cart.isEmpty then some false
  else if cart.all (receipt_ok m) then some true
  else none

/-- The `elif choice == "checkout"` branch of the command loop
(lines 151-157): on a successful receipt printout, `create_order`; only on
its success is the cart cleared (file deleted, list emptied) and the program
exited.  Result: the filesystem, the in-memory cart, and whether the
program exits; `none` models a crash. -/
def checkout_branch (m : Menu) (fs : FS) (cart : List Pizza)
    (order_id date : String) (writeOk : Bool) (fuel : Nat) :
    Option (FS × List Pizza × Bool) :=
  match command_checkout m cart with
  | none => none
  | some false => some (fs, cart, false)
  | some true =>
    match create_order fs order_id date cart writeOk fuel with
    | none => none
    | some (false, fs') => some (fs', cart, false)
    | some (true, fs') => some (dictRemove fs' CART_FILE, [], true)

/-! # The claims -/

/-! ## C1: order-filename collision handling -/

/-- An orders directory already holding the plain file and the `_0` file for
one timestamp — the disk state after two checkouts in the same second. -/
def exTwoOrders (s : String) : Bool :=
  s == "20250101_120000.json" || s == "20250101_120000_0.json"

theorem orderPathLoop_stuck (fuel : Nat) :
    ∀ path, exTwoOrders path = true →
      orderPathLoop exTwoOrders "20250101_120000" 0 fuel path = none := by
  induction fuel with
  | zero => intro path h; rfl
  | succ n ih =>
    intro path h
    unfold orderPathLoop
    simp only [h, if_true]
    exact ih _ (by decide)

/-- The orders directory after the first checkout of the second. -/
def fsOneOrder : FS := [("20250101_120000.json", FileData.json (Json.str "first order"))]

/-- C1: a second checkout in the same second does get the distinct suffixed
filename `_0` and leaves the first order file intact — but the claim's
"trying successive suffixes until a filename not present on disk is found"
fails: `attempts` is never incremented, so once `<id>.json` and
`<id>_0.json` both exist the loop re-probes `<id>_0.json` forever and
`create_order` never returns, for any number of iterations. -/
theorem create_order_collision_bug :
    (findOrderPath (fun s => (dictGet fsOneOrder s).isSome) "20250101_120000" 2
       = some "20250101_120000_0.json")
    ∧ (create_order fsOneOrder "20250101_120000" "2025-01-01T12:00:00" [] true 2
       = some (true, fsOneOrder ++
           [("20250101_120000_0.json",
             FileData.json (order_doc "20250101_120000" "2025-01-01T12:00:00" []))]))
    ∧ (∀ fuel, findOrderPath exTwoOrders "20250101_120000" fuel = none) := by
  refine ⟨by decide, by rfl, fun fuel => ?_⟩
  exact orderPathLoop_stuck fuel _ (by decide)

/-! ## C2: menu download failure handling -/

/-- C2: the non-2xx half of the claim holds — on `requests.HTTPError` the
code falls back to the cache, an absent or unparseable cache file makes
`download_ingredients` return failure, and `main` then returns before the
command loop.  But on a *transport-level* failure (`requests.ConnectionError`
etc. raised by `requests.get` itself) the claim fails: only
`json.JSONDecodeError` and `requests.HTTPError` are caught, so the exception
propagates and the program crashes without ever consulting the cache. -/
theorem download_transport_not_caught :
    (∀ fs cacheWriteOk, download_ingredients .transportError fs cacheWriteOk = .crash)
    ∧ (∀ fs cacheWriteOk, dictGet fs INGREDIENTS_CACHE_FILE = none →
        download_ingredients .httpError fs cacheWriteOk = .failed fs)
    ∧ (∀ fs cacheWriteOk, dictGet fs INGREDIENTS_CACHE_FILE = some .invalid →
        download_ingredients .httpError fs cacheWriteOk = .failed fs)
    ∧ (∀ net fs cacheWriteOk fs', download_ingredients net fs cacheWriteOk = .failed fs' →
        main_startup net fs cacheWriteOk = .aborted) := by
  refine ⟨fun fs cw => rfl, fun fs cw h => ?_, fun fs cw h => ?_, fun net fs cw fs' h => ?_⟩
  · unfold download_ingredients
    rw [h]
  · unfold download_ingredients
    rw [h]
  · unfold main_startup
    rw [h]

theorem download_transport_not_caught_witness :
    download_ingredients .httpError [] true = .failed []
    ∧ download_ingredients .httpError [(INGREDIENTS_CACHE_FILE, FileData.invalid)] true
        = .failed [(INGREDIENTS_CACHE_FILE, FileData.invalid)]
    ∧ main_startup .httpError [] true = .aborted := by
  refine ⟨download_transport_not_caught.2.1 [] true rfl,
          download_transport_not_caught.2.2.1 [(INGREDIENTS_CACHE_FILE, FileData.invalid)] true
            (by rfl),
          download_transport_not_caught.2.2.2 .httpError [] true []
            (download_transport_not_caught.2.1 [] true rfl)⟩

/-! ## C3: shape validation of the ingredients document -/

/-- A document whose `toppings` mapping is empty: it violates the minimal
shape as the specification states it, yet passes the code's three asserts
(which never check non-emptiness of `options` or `toppings`, nor any
`base_options` element beyond the first). -/
def emptyToppingsDoc : Json :=
  .obj [("base_options",
          .arr [.obj [("category", .str "size"),
                      ("options", .obj [("small", .num 8)])]]),
        ("toppings", .obj [])]

/-- C3 counterexample: a document that fails the spec's minimal shape check
(empty `toppings` mapping) on which `download_ingredients` nevertheless
succeeds — refuting "returns failure if and only if the document fails the
minimal shape check". -/
theorem shape_check_weaker_than_spec :
    spec_shape emptyToppingsDoc = false
    ∧ (download_ingredients (.success (.json emptyToppingsDoc)) [] true).isFailed = false
    ∧ (download_ingredients (.success (.json emptyToppingsDoc)) [] true).isOk = true := by
  exact ⟨by decide, by decide, by decide⟩

theorem finishLoad_isFailed (j : Json) (fs : FS) :
    (finishLoad j fs).isFailed = !shape_check j := by
  unfold finishLoad
  cases h : shape_check j
  · simp [h, DlOutcome.isFailed]
  · simp only [h, if_true]
    cases hb : buildStore j <;> simp [DlOutcome.isFailed]

/-- C3 amended: for a document obtained from either source (network or
cache), `download_ingredients` returns failure exactly when the document
fails the check the code actually performs: `base_options` must be present
with an indexable first element having a string `category` and a dict
`options`, and `toppings` must be present and a dict.  Emptiness of
`options`/`toppings`, elements of `base_options` past the first, and price
values are not validated.  (A document passing the check can still crash the
loader while populating the stores — a propagated exception, not a failure
return.) -/
theorem download_failure_iff_shape_check :
    (∀ j fs cacheWriteOk,
      (download_ingredients (.success (.json j)) fs cacheWriteOk).isFailed = !shape_check j)
    ∧ (∀ j fs cacheWriteOk, dictGet fs INGREDIENTS_CACHE_FILE = some (.json j) →
      (download_ingredients .httpError fs cacheWriteOk).isFailed = !shape_check j) := by
  constructor
  · intro j fs cw
    unfold download_ingredients
    exact finishLoad_isFailed j _
  · intro j fs cw h
    unfold download_ingredients
    rw [h]
    exact finishLoad_isFailed j fs

theorem download_failure_iff_shape_check_witness :
    (download_ingredients .httpError [(INGREDIENTS_CACHE_FILE, FileData.json emptyToppingsDoc)]
        true).isFailed
      = !shape_check emptyToppingsDoc := by
  exact download_failure_iff_shape_check.2 emptyToppingsDoc
    [(INGREDIENTS_CACHE_FILE, FileData.json emptyToppingsDoc)] true (by rfl)

/-! ## C4: price computation -/

theorem addBasePrices_spec (pbo : List (String × Option String)) :
    ∀ (mbo : List (String × List (String × Json))) (acc : ℚ),
      mbo.all (fun co =>
        match dictGet pbo co.1 with
        | none => false
        | some none => true
        | some (some s) => (s = "") || ((dictGet co.2 s).bind jnum).isSome) = true →
      addBasePrices pbo mbo acc
        = some (acc + (mbo.filterMap (fun co =>
            match dictGet pbo co.1 with
            | some (some s) => if s = "" then none else (dictGet co.2 s).bind jnum
            | _ => none)).sum) := by
  intro mbo
  induction mbo with
  | nil => intro acc h; simp [addBasePrices]
  | cons co rest ih =>
    intro acc h
    obtain ⟨cat, opts⟩ := co
    simp only [List.all_cons, Bool.and_eq_true] at h
    obtain ⟨h1, h2⟩ := h
    cases hg : dictGet pbo cat with
    | none => rw [hg] at h1; exact absurd h1 (by simp)
    | some sel =>
      cases sel with
      | none =>
        simp only [addBasePrices, hg, List.filterMap_cons]
        exact ih acc h2
      | some s =>
        by_cases hs : s = ""
        · subst hs
          simp only [addBasePrices, hg, List.filterMap_cons, if_pos rfl]
          exact ih acc h2
        · rw [hg] at h1
          have h1' : (decide (s = "") || ((dictGet opts s).bind jnum).isSome) = true := h1
          rw [decide_eq_false hs, Bool.false_or] at h1'
          obtain ⟨q, hq1⟩ := Option.isSome_iff_exists.mp h1'
          obtain ⟨v, hv, hq⟩ := Option.bind_eq_some.mp hq1
          simp only [addBasePrices, hg, if_neg hs, List.filterMap_cons, hv, hq,
            Option.some_bind, List.sum_cons]
          rw [ih (acc + q) h2]
          congr 1
          ring

theorem addToppingPrices_spec (mt : List (String × Json)) :
    ∀ (ts : List String) (acc : ℚ),
      ts.all (fun t => ((dictGet mt t).bind jnum).isSome) = true →
      addToppingPrices mt ts acc
        = some (acc + (ts.filterMap (fun t => (dictGet mt t).bind jnum)).sum) := by
  intro ts
  induction ts with
  | nil => intro acc h; simp [addToppingPrices]
  | cons t rest ih =>
    intro acc h
    simp only [List.all_cons, Bool.and_eq_true] at h
    obtain ⟨h1, h2⟩ := h
    obtain ⟨q, hq1⟩ := Option.isSome_iff_exists.mp h1
    obtain ⟨v, hv, hq⟩ := Option.bind_eq_some.mp hq1
    simp only [addToppingPrices, hv, hq, List.filterMap_cons, Option.some_bind, List.sum_cons]
    rw [ih (acc + q) h2]
    congr 1
    ring

/-- The scenario menu: categories `size = {small: 8.00, large: 12.00}`,
toppings `{cheese: 1.50}`.  (8.0, 12.0 and 1.5 are exactly representable
floats, so rationals model them faithfully.) -/
def scenarioMenu : Menu :=
  ⟨[("size", [("small", .num 8), ("large", .num 12)])], [("cheese", .num (3 / 2))]⟩

/-- The scenario pizza: `size = large`, topping `cheese`. -/
def scenarioPizza : Pizza := ⟨[("size", some "large")], ["cheese"], "dana"⟩

/-- C4: whenever every selection and topping of the pizza exists (with a
numeric price) in the menu store, `calculate_pizza_price` returns the sum of
the selected base-option prices (unselected categories skipped) plus the sum
of the selected topping prices; and on the scenario menu a pizza with
`size = large` and topping `cheese` prices at `13.50`.  The function is pure
in the embedding, as in the source (it only reads the pizza), so it cannot
mutate its argument and repeated calls return the same value. -/
theorem calculate_pizza_price_correct :
    (∀ m p, well_formed_pizza m p = true →
      calculate_pizza_price m p
        = some ((selected_base_prices m p).sum + (selected_topping_prices m p).sum))
    ∧ calculate_pizza_price scenarioMenu scenarioPizza = some (27 / 2) := by
  constructor
  · intro m p h
    unfold well_formed_pizza at h
    simp only [Bool.and_eq_true] at h
    obtain ⟨hb, ht⟩ := h
    unfold calculate_pizza_price
    rw [addBasePrices_spec p.base_options m.base_options 0 hb]
    show addToppingPrices m.toppings p.toppings _ = _
    rw [addToppingPrices_spec m.toppings p.toppings _ ht]
    unfold selected_base_prices selected_topping_prices
    congr 1
    ring
  · simp [calculate_pizza_price, scenarioMenu, scenarioPizza, addBasePrices,
      addToppingPrices, dictGet, jnum]
    norm_num

theorem calculate_pizza_price_correct_witness :
    well_formed_pizza scenarioMenu scenarioPizza = true
    ∧ calculate_pizza_price scenarioMenu scenarioPizza
        = some ((selected_base_prices scenarioMenu scenarioPizza).sum
                + (selected_topping_prices scenarioMenu scenarioPizza).sum) := by
  exact ⟨by decide, calculate_pizza_price_correct.1 scenarioMenu scenarioPizza (by decide)⟩

/-! ## C5: cart round trip -/

theorem selJson_inj (a b : Option String) :
    (match a with | none => Json.null | some s => Json.str s)
      = (match b with | none => Json.null | some s => Json.str s) → a = b := by
  cases a <;> cases b <;> simp_all

theorem pizzaToJson_injective : Function.Injective pizzaToJson := by
  intro p q h
  unfold pizzaToJson at h
  simp only [Json.obj.injEq, List.cons.injEq, Prod.mk.injEq, true_and, and_true,
    Json.arr.injEq, Json.str.injEq] at h
  obtain ⟨hbo, hto, hr⟩ := h
  have hbo' : p.base_options = q.base_options := by
    have hinj : Function.Injective (fun cs : String × Option String =>
        (cs.1, match cs.2 with | none => Json.null | some s => Json.str s)) := by
      intro a b hab
      simp only [Prod.mk.injEq] at hab
      exact Prod.ext hab.1 (selJson_inj _ _ hab.2)
    exact List.map_injective_iff.mpr hinj hbo
  have hto' : p.toppings = q.toppings := by
    have hinj : Function.Injective Json.str := fun a b hab => Json.str.inj hab
    exact List.map_injective_iff.mpr hinj hto
  cases p
  cases q
  simp_all

/-- C5: saving any cart and loading it back succeeds and yields an in-memory
cart equal to the original — `load_cart` returns exactly the serialized
pizza list, and the serialization is injective, so equality of the parsed
values is equality of the carts.  This includes the empty cart. -/
theorem cart_save_load_round_trip :
    (∀ (fs : FS) (c : List Pizza) (cart0 : List Json),
      load_cart (save_cart fs true (c.map pizzaToJson)) cart0
        = .ok true (c.map pizzaToJson))
    ∧ ∀ (c c' : List Pizza), c.map pizzaToJson = c'.map pizzaToJson → c = c' := by
  constructor
  · intro fs c cart0
    show load_cart (dictSet fs CART_FILE (.json (.arr (c.map pizzaToJson)))) cart0 = _
    unfold load_cart
    rw [dictGet_dictSet_same]
    rfl
  · intro c c' h
    exact List.map_injective_iff.mpr pizzaToJson_injective h

theorem cart_save_load_round_trip_witness :
    (load_cart (save_cart [] true ([scenarioPizza].map pizzaToJson)) []
      = .ok true ([scenarioPizza].map pizzaToJson))
    ∧ (load_cart (save_cart [] true (([] : List Pizza).map pizzaToJson)) []
      = .ok true (([] : List Pizza).map pizzaToJson))
    ∧ [scenarioPizza] = [scenarioPizza] := by
  exact ⟨cart_save_load_round_trip.1 [] [scenarioPizza] [],
         cart_save_load_round_trip.1 [] [] [],
         cart_save_load_round_trip.2 [scenarioPizza] [scenarioPizza] rfl⟩

/-! ## C6: finish eligibility in the editor -/

theorem dictGet_mem {α : Type} :
    ∀ (l : List (String × α)) (k : String) (v : α), dictGet l k = some v → (k, v) ∈ l := by
  intro l
  induction l with
  | nil => intro k v h; simp [dictGet] at h
  | cons hd tl ih =>
    intro k v h
    obtain ⟨k', v'⟩ := hd
    unfold dictGet at h
    by_cases hk : k' = k
    · rw [if_pos hk] at h
      obtain rfl := Option.some.inj h
      subst hk
      exact List.mem_cons_self _ _
    · rw [if_neg hk] at h
      exact List.mem_cons_of_mem _ (ih k v h)

/-- A truthy selection stays truthy through
`pizza_options[category] = choice or pizza_options[category]`. -/
theorem choose_base_option_truthy (pick old : Option String) (h : truthy old = true) :
    truthy (choose_base_option pick old) = true := by
  cases pick with
  | none => exact h
  | some c =>
    show truthy (if c = "" then old else some c) = true
    by_cases hc : c = ""
    · rw [if_pos hc]; exact h
    · rw [if_neg hc]
      unfold truthy
      simp [hc]

/-- `editStep` on each event once the top-of-loop render is known to
succeed. -/
theorem editStep_category (m : Menu) (p : Pizza) (q : ℚ)
    (hq : calculate_pizza_price m p = some q) (cat : String) (pick : Option String) :
    editStep m p (.category cat pick)
      = match dictGet m.base_options cat with
        | none => .cont p
        | some _ =>
          match dictGet p.base_options cat with
          | none => .crash
          | some old =>
            .cont { p with
                    base_options := dictSet p.base_options cat (choose_base_option pick old) } := by
  unfold editStep
  rw [hq]
  rfl

theorem editStep_toppings_ev (m : Menu) (p : Pizza) (q : ℚ)
    (hq : calculate_pizza_price m p = some q) (toggles : List String) :
    editStep m p (.toppings toggles)
      = .cont { p with toppings := toggles.foldl toggle_topping p.toppings } := by
  unfold editStep
  rw [hq]
  rfl

theorem editStep_finish (m : Menu) (p : Pizza) (q : ℚ)
    (hq : calculate_pizza_price m p = some q) :
    editStep m p .finish
      = if all_required_picked m p then .finished p else .cont p := by
  unfold editStep
  rw [hq]
  rfl

theorem editStep_cancel (m : Menu) (p : Pizza) (q : ℚ)
    (hq : calculate_pizza_price m p = some q) (confirm : Bool) :
    editStep m p (.cancel confirm)
      = if confirm then .cancelled p else .cont p := by
  unfold editStep
  rw [hq]
  rfl

/-- `all_required_picked` only reads the selections. -/
theorem all_required_picked_toppings (m : Menu) (p : Pizza) (ts : List String) :
    all_required_picked m { p with toppings := ts } = all_required_picked m p := rfl

theorem all_required_picked_recipient (m : Menu) (p : Pizza) (r : String) :
    all_required_picked m { p with recipient := r } = all_required_picked m p := rfl

/-- Updating one category through `choose_base_option` preserves
`all_required_picked`. -/
theorem all_required_picked_update (m : Menu) (p : Pizza) (cat : String)
    (old : Option String) (pick : Option String)
    (hmem : dictGet p.base_options cat = some old)
    (hall : all_required_picked m p = true)
    (hold : truthy old = true) :
    all_required_picked m
      { p with base_options := dictSet p.base_options cat (choose_base_option pick old) }
      = true := by
  unfold all_required_picked at hall ⊢
  rw [List.all_eq_true] at hall ⊢
  intro co hco
  by_cases hc : co.1 = cat
  · rw [hc, dictGet_dictSet_same]
    exact choose_base_option_truthy pick old hold
  · rw [dictGet_dictSet_other _ _ _ _ hc]
    exact hall co hco

/-- The tiny menu of the counterexample: one category with one option. -/
def tinyMenu : Menu := ⟨[("size", [("small", .num 8)])], []⟩

/-- A pizza whose only selection is the *empty string* — non-null, but falsy
for Python's `if selection:`.  `load_cart` performs no validation, so such a
pizza can enter the program from a hand-edited cart file and be opened in
the editor. -/
def emptyStringSelPizza : Pizza := ⟨[("size", some "")], [], ""⟩

/-- C6 counterexample: a pizza whose every category has a *non-null*
selection, which the finish check nevertheless rejects — the code tests
Python truthiness (`if selection:`), not null-ness, so the empty-string
selection counts as unselected.  This refutes "permitted if and only if
every category has a non-null selection". -/
theorem finish_rejects_non_null_falsy_selection :
    emptyStringSelPizza.base_options.all (fun co => co.2.isSome) = true
    ∧ (editStep tinyMenu emptyStringSelPizza .finish).isFinished = false := by
  exact ⟨by decide, by decide⟩

/-- C6 amended: whenever the editor's render succeeds (every lookup of
`calculate_pizza_price` succeeds), the finish transition is taken exactly
when every category of the current menu holds a truthy — non-null *and*
non-empty — selection; and eligibility, once true, is preserved by every
editor step that stays in the loop (selections can be changed but never
cleared, and topping or cancel-declined steps leave them untouched). -/
theorem finish_iff_truthy_selections :
    ∀ (m : Menu) (p : Pizza), (calculate_pizza_price m p).isSome = true →
      ((editStep m p .finish = .finished p ↔ all_required_picked m p = true)
       ∧ ∀ (ev : EditEvent) (p' : Pizza), all_required_picked m p = true →
           editStep m p ev = .cont p' → all_required_picked m p' = true) := by
  intro m p h
  obtain ⟨q, hq⟩ := Option.isSome_iff_exists.mp h
  constructor
  · rw [editStep_finish m p q hq]
    cases har : all_required_picked m p <;> simp [har]
  · intro ev p' hall hstep
    cases ev with
    | category cat pick =>
      rw [editStep_category m p q hq cat pick] at hstep
      cases hm : dictGet m.base_options cat with
      | none =>
        rw [hm] at hstep
        obtain rfl := StepOut.cont.inj hstep
        exact hall
      | some opts =>
        rw [hm] at hstep
        cases hp : dictGet p.base_options cat with
        | none => rw [hp] at hstep; exact absurd hstep (by simp)
        | some old =>
          rw [hp] at hstep
          obtain rfl := StepOut.cont.inj hstep
          have hold : truthy old = true := by
            have hmem := dictGet_mem m.base_options cat opts hm
            have := (List.all_eq_true.mp hall) (cat, opts) hmem
            simpa [hp] using this
          exact all_required_picked_update m p cat old pick hp hall hold
    | toppings toggles =>
      rw [editStep_toppings_ev m p q hq toggles] at hstep
      obtain rfl := StepOut.cont.inj hstep
      exact hall
    | finish =>
      rw [editStep_finish m p q hq, hall] at hstep
      exact absurd hstep (by simp)
    | cancel confirm =>
      rw [editStep_cancel m p q hq confirm] at hstep
      cases confirm with
      | true => exact absurd hstep (by simp)
      | false =>
        obtain rfl := StepOut.cont.inj hstep
        exact hall

theorem finish_iff_truthy_selections_witness :
    (calculate_pizza_price scenarioMenu scenarioPizza).isSome = true
    ∧ (editStep scenarioMenu scenarioPizza .finish = .finished scenarioPizza
       ↔ all_required_picked scenarioMenu scenarioPizza = true) := by
  exact ⟨by decide, (finish_iff_truthy_selections scenarioMenu scenarioPizza (by decide)).1⟩

/-! ## C7: corrupted cart file -/

/-- C7: an existing cart file whose contents fail to parse makes `load_cart`
report the failure ("Malformed cart data") and return `False` — an ordinary
return, not an exception — with the in-memory cart exactly as it was; and
`main`, whose cart starts empty, prints a hint and proceeds into the command
loop with that empty cart whenever the menu download succeeded. -/
theorem load_cart_invalid_json_safe :
    (∀ (fs : FS) (cart0 : List Json), dictGet fs CART_FILE = some .invalid →
      load_cart fs cart0 = .ok false cart0)
    ∧ (∀ (net : NetResult) (fs : FS) (cacheWriteOk : Bool) (store : RawStore) (fs' : FS),
        download_ingredients net fs cacheWriteOk = .ok store fs' →
        dictGet fs' CART_FILE = some .invalid →
        main_startup net fs cacheWriteOk = .inLoop store [] fs') := by
  constructor
  · intro fs cart0 h
    unfold load_cart
    rw [h]
  · intro net fs cw store fs' hdl hcart
    have hl : load_cart fs' [] = .ok false [] := by
      unfold load_cart
      rw [hcart]
    simp only [main_startup, hdl, hl]

/-- The filesystem of the corrupted-cart scenario. -/
def corruptedCartFS : FS := [(CART_FILE, FileData.invalid)]

theorem load_cart_invalid_json_safe_witness :
    load_cart corruptedCartFS [] = .ok false []
    ∧ main_startup (.success (.json emptyToppingsDoc)) corruptedCartFS false
        = .inLoop ⟨[("size", Json.obj [("small", Json.num 8)])], []⟩ [] corruptedCartFS := by
  exact ⟨load_cart_invalid_json_safe.1 corruptedCartFS [] rfl,
         load_cart_invalid_json_safe.2 (.success (.json emptyToppingsDoc)) corruptedCartFS false
           ⟨[("size", Json.obj [("small", Json.num 8)])], []⟩ corruptedCartFS rfl rfl⟩

/-! ## C8: order-write failure leaves the cart intact -/

/-- C8: when writing the order file raises an I/O error, `create_order`
catches it and returns `False` with the filesystem untouched (no order file,
cart file intact), and the checkout branch of the command loop then neither
clears the in-memory cart nor deletes the cart file nor exits — the loop
continues and checkout can be retried. -/
theorem order_write_failure_preserves_cart :
    ∀ (m : Menu) (fs : FS) (cart : List Pizza) (order_id date : String) (fuel : Nat)
      (pth : String),
      command_checkout m cart = some true →
      findOrderPath (fun s => (dictGet fs s).isSome) order_id fuel = some pth →
      create_order fs order_id date cart false fuel = some (false, fs)
      ∧ checkout_branch m fs cart order_id date false fuel = some (fs, cart, false) := by
  intro m fs cart order_id date fuel pth hco hfind
  have hcre : create_order fs order_id date cart false fuel = some (false, fs) := by
    unfold create_order
    rw [hfind]
    rfl
  refine ⟨hcre, ?_⟩
  simp only [checkout_branch, hco, hcre]

theorem order_write_failure_preserves_cart_witness :
    create_order [] "20250101_120000" "2025-01-01T12:00:00" [scenarioPizza] false 1
      = some (false, [])
    ∧ checkout_branch scenarioMenu [] [scenarioPizza] "20250101_120000" "2025-01-01T12:00:00"
        false 1
      = some ([], [scenarioPizza], false) := by
  exact order_write_failure_preserves_cart scenarioMenu [] [scenarioPizza]
    "20250101_120000" "2025-01-01T12:00:00" 1 "20250101_120000.json" (by decide) (by decide)

/-! ## C9: topping toggle -/

/-- C9 counterexample: on a topping list with a duplicate entry — which
`load_cart` happily admits from a cart file, since it validates nothing —
toggling the topping twice does *not* restore its membership: each toggle
runs `list.remove`, which deletes one occurrence, so two toggles delete both
and membership flips from present to absent. -/
theorem toggle_twice_duplicate_counterexample :
    ("cheese" ∈ ["cheese", "cheese"])
    ∧ ("cheese" ∉ toggle_topping (toggle_topping ["cheese", "cheese"] "cheese") "cheese") := by
  exact ⟨by decide, by decide⟩

/-- C9 amended: on every topping list in which the toggled topping occurs at
most once — the invariant every editor-built list satisfies, since toggling
only appends a topping that is absent — toggling twice restores the
topping's membership to its original state. -/
theorem toggle_topping_twice_membership :
    ∀ (l : List String) (t : String), l.count t ≤ 1 →
      (t ∈ toggle_topping (toggle_topping l t) t ↔ t ∈ l) := by
  intro l t hcount
  by_cases h : t ∈ l
  · have h1 : toggle_topping l t = l.erase t := by
      unfold toggle_topping
      rw [if_pos h]
    have hne : t ∉ l.erase t := by
      intro hmem
      have hpos : 0 < (l.erase t).count t := List.count_pos_iff.mpr hmem
      rw [List.count_erase_self] at hpos
      omega
    have h2 : toggle_topping (l.erase t) t = l.erase t ++ [t] := by
      unfold toggle_topping
      rw [if_neg hne]
    rw [h1, h2]
    simp [h]
  · have h1 : toggle_topping l t = l ++ [t] := by
      unfold toggle_topping
      rw [if_neg h]
    have hmem : t ∈ l ++ [t] := by simp
    have h2 : toggle_topping (l ++ [t]) t = (l ++ [t]).erase t := by
      unfold toggle_topping
      rw [if_pos hmem]
    have h3 : (l ++ [t]).erase t = l := by
      rw [List.erase_append_right _ h]
      simp
    rw [h1, h2, h3]

theorem toggle_topping_twice_membership_witness :
    (List.count "cheese" ["olive"] ≤ 1)
    ∧ ("cheese" ∈ toggle_topping (toggle_topping ["olive"] "cheese") "cheese"
       ↔ "cheese" ∈ ["olive"]) := by
  exact ⟨by decide, toggle_topping_twice_membership ["olive"] "cheese" (by decide)⟩

/-! ## C10: every cart pizza is fully selected -/

/-- `editStep` yields `finished` only from the Finish branch, which is
guarded by `all_required_picked`. -/
theorem editStep_finished_all_picked (m : Menu) (p : Pizza) (ev : EditEvent) (p' : Pizza)
    (h : editStep m p ev = .finished p') : all_required_picked m p' = true := by
  cases hc : calculate_pizza_price m p with
  | none =>
    unfold editStep at h
    rw [hc] at h
    simp at h
  | some q =>
    cases ev with
    | category cat pick =>
      rw [editStep_category m p q hc cat pick] at h
      cases hm : dictGet m.base_options cat <;> rw [hm] at h
      · simp at h
      · cases hp : dictGet p.base_options cat <;> rw [hp] at h
        · simp at h
        · simp at h
    | toppings toggles =>
      rw [editStep_toppings_ev m p q hc toggles] at h
      simp at h
    | finish =>
      rw [editStep_finish m p q hc] at h
      by_cases har : all_required_picked m p = true
      · rw [if_pos har] at h
        obtain rfl := StepOut.finished.inj h
        exact har
      · rw [if_neg har] at h
        simp at h
    | cancel confirm =>
      rw [editStep_cancel m p q hc confirm] at h
      cases confirm <;> simp at h

/-- The recipient prompt does not touch the selections. -/
theorem all_required_picked_finish_recipient (m : Menu) (p : Pizza) (n : String) :
    all_required_picked m (finish_recipient p n) = all_required_picked m p := by
  unfold finish_recipient
  by_cases h : p.recipient = ""
  · rw [if_pos h]; rfl
  · rw [if_neg h]; rfl

/-- `edit_pizza` returns success only with a fully selected pizza. -/
theorem edit_pizza_success_all_picked (m : Menu) (nameIn : String) :
    ∀ (events : List EditEvent) (p p' : Pizza),
      edit_pizza m p nameIn events = .success p' → all_required_picked m p' = true := by
  intro events
  induction events with
  | nil =>
    intro p p' h
    simp [edit_pizza] at h
  | cons ev rest ih =>
    intro p p' h
    unfold edit_pizza at h
    cases hs : editStep m p ev with
    | crash => rw [hs] at h; simp at h
    | cancelled p0 => rw [hs] at h; simp at h
    | cont p0 => rw [hs] at h; exact ih p0 p' h
    | finished p0 =>
      rw [hs] at h
      have h' : EditResult.success (finish_recipient p0 nameIn) = EditResult.success p' := h
      obtain rfl := (EditResult.success.inj h').symm
      rw [all_required_picked_finish_recipient]
      exact editStep_finished_all_picked m p ev p0 hs

/-- C10: (i) `command_new` appends a pizza to the cart exactly when
`edit_pizza` returned success, and leaves the cart unchanged otherwise;
(ii) `edit_pizza` succeeds only with every menu category holding a truthy
selection; (iii) `choose_base_option` keeps the existing value on blank
input and can never reset a set selection to null; (iv) a truthy selection
is in particular non-null; (v) hence `command_new` preserves the invariant
that every cart pizza has a truthy — in particular non-null — selection for
every category of the current menu. -/
theorem cart_pizzas_all_selected :
    (∀ (m : Menu) (cart : List Pizza) (nameIn : String) (events : List EditEvent)
       (cart' : List Pizza),
       command_new m cart nameIn events = some cart' →
       cart' = cart
       ∨ ∃ p, edit_pizza m (new_pizza m) nameIn events = .success p ∧ cart' = cart ++ [p])
    ∧ (∀ (m : Menu) (p : Pizza) (nameIn : String) (events : List EditEvent) (p' : Pizza),
       edit_pizza m p nameIn events = .success p' → all_required_picked m p' = true)
    ∧ (∀ (old : Option String), choose_base_option none old = old)
    ∧ (∀ (pick : Option String) (v : String), choose_base_option pick (some v) ≠ none)
    ∧ (∀ (m : Menu) (p : Pizza), all_required_picked m p = true →
       ∀ co ∈ m.base_options, ((dictGet p.base_options co.1).getD none).isSome = true)
    ∧ (∀ (m : Menu) (cart : List Pizza) (nameIn : String) (events : List EditEvent)
       (cart' : List Pizza),
       cart.all (fun p => all_required_picked m p) = true →
       command_new m cart nameIn events = some cart' →
       cart'.all (fun p => all_required_picked m p) = true) := by
  have hnew : ∀ (m : Menu) (cart : List Pizza) (nameIn : String) (events : List EditEvent)
      (cart' : List Pizza),
      command_new m cart nameIn events = some cart' →
      cart' = cart
      ∨ ∃ p, edit_pizza m (new_pizza m) nameIn events = .success p ∧ cart' = cart ++ [p] := by
    intro m cart nameIn events cart' h
    unfold command_new at h
    cases he : edit_pizza m (new_pizza m) nameIn events <;> rw [he] at h
    case success p =>
      obtain rfl := (Option.some.inj h).symm
      exact Or.inr ⟨p, rfl, rfl⟩
    case cancelledEdit p0 =>
      obtain rfl := (Option.some.inj h).symm
      exact Or.inl rfl
    case outOfInput p0 => simp at h
    case crash => simp at h
  refine ⟨hnew, fun m p n e p' h => edit_pizza_success_all_picked m n e p p' h,
          fun old => rfl, ?_, ?_, ?_⟩
  · intro pick v
    cases pick with
    | none => simp [choose_base_option]
    | some c =>
      show (if c = "" then some v else some c) ≠ none
      by_cases hc : c = ""
      · rw [if_pos hc]; simp
      · rw [if_neg hc]; simp
  · intro m p hall co hco
    have := (List.all_eq_true.mp hall) co hco
    cases hsel : (dictGet p.base_options co.1).getD none with
    | none => rw [hsel] at this; exact absurd this (by simp [truthy])
    | some s => rfl
  · intro m cart nameIn events cart' hall h
    rcases hnew m cart nameIn events cart' h with rfl | ⟨p, hp, rfl⟩
    · exact hall
    · rw [List.all_append, hall, Bool.true_and, List.all_cons, List.all_nil, Bool.and_true]
      exact edit_pizza_success_all_picked m nameIn events (new_pizza m) p hp

theorem cart_pizzas_all_selected_witness :
    (command_new scenarioMenu [] "ana"
        [.category "size" (some "large"), .finish]
      = some [⟨[("size", some "large")], [], "ana"⟩])
    ∧ ([(⟨[("size", some "large")], [], "ana"⟩ : Pizza)].all
        (fun p => all_required_picked scenarioMenu p) = true)
    ∧ all_required_picked scenarioMenu ⟨[("size", some "large")], [], "ana"⟩ = true := by
  refine ⟨rfl, ?_, ?_⟩
  · exact cart_pizzas_all_selected.2.2.2.2.2 scenarioMenu [] "ana"
      [.category "size" (some "large"), .finish]
      [⟨[("size", some "large")], [], "ana"⟩] rfl rfl
  · exact cart_pizzas_all_selected.2.1 scenarioMenu (new_pizza scenarioMenu) "ana"
      [.category "size" (some "large"), .finish]
      ⟨[("size", some "large")], [], "ana"⟩ rfl

end Pizza
